import Mathlib

/-!
Verification development for the Bloomberg EPUB post-processor
(`src/process_epub.py`).  The Python functions relevant to the claims are
shallowly embedded as executable Lean definitions over `List Char` /
`String`, `Nat`/`Int`, `Option` and `Except`.

Modelling conventions:
* Python `str` is modelled by Lean `String` (a list of Unicode code points),
  and most work happens on `String.data : List Char`.
* Python whitespace (`str.strip()`, regex `\s`) is modelled by the ASCII
  whitespace set; the titles processed by the pipeline are ASCII.
* The four anchored suffix regexes of `smart_shorten_title` are embedded by
  dedicated matchers implementing Python `re.sub` semantics for these
  patterns: leftmost match, greedy quantifiers, `$` matching at the end of
  the string or just before a final newline, `.` not matching newline,
  `re.IGNORECASE` comparisons via `Char.toLower`.
* The float comparison `last_space > max_len * 0.6` is modelled by the exact
  rational comparison `5 * last_space > 3 * max_len`; for every `max_len`
  below `2 ^ 49` the IEEE-754 double computation agrees with the exact
  rational one, so this is faithful on the whole range of interest.
-/

/-- Python whitespace test, restricted to the ASCII whitespace characters
(space, tab, newline, carriage return, vertical tab, form feed).  Used for
both `str.strip()` and the regex class `\s`. -/
def pyIsSpace (c : Char) : Bool :=
  c = ' ' || c = '\t' || c = '\n' || c = '\r' || c = '\x0b' || c = '\x0c'

/-- Python `str.strip()` on a list of characters: remove leading and
trailing whitespace. -/
def pyStrip (l : List Char) : List Char :=
  ((l.dropWhile pyIsSpace).reverse.dropWhile pyIsSpace).reverse

/-- Greedy `\s*`: skip a maximal run of whitespace.  All uses in the
embedded patterns are followed by a mandatory non-whitespace character, so
the greedy skip is the only viable regex parse. -/
def skipWs (l : List Char) : List Char := l.dropWhile pyIsSpace

/-- Case-insensitive literal match (the pattern is given in lowercase):
returns the rest of the input after the literal, or `none`.  Models
`re.IGNORECASE` matching of an ASCII literal. -/
def ciPrefix : List Char → List Char → Option (List Char)
  | [], u => some u
  | _ :: _, [] => none
  | p :: ps, c :: cs => if c.toLower = p then ciPrefix ps cs else none

/-- The trailing `.*$` of the `Bloomberg` suffix patterns, with Python
semantics: `.` does not match a newline and `$` matches at the end of the
string or just before a terminating newline.  Returns the part of the
input that survives the substitution (empty, or a final newline), or
`none` when an interior newline makes the pattern unmatchable. -/
def dotStarDollar (tail : List Char) : Option (List Char) :=
  if tail.contains '\n' then
    if tail.dropLast.contains '\n' then none else some ['\n']
  else some []

/-- Matcher for `r'\s*[-–—]\s*Bloomberg.*$'` (case-insensitive) at the start
of the given suffix: returns the surviving tail on a match. -/
def tryDashBloomberg (u : List Char) : Option (List Char) :=
  match skipWs u with
  | c :: rest =>
    if c = '-' || c = '–' || c = '—' then
      match ciPrefix ("bloomberg".data) (skipWs rest) with
      | some tail => dotStarDollar tail
      | none => none
    else none
  | [] => none

/-- Matcher for `r'\s*\|\s*Bloomberg.*$'` (case-insensitive) at the start of
the given suffix. -/
def tryPipeBloomberg (u : List Char) : Option (List Char) :=
  match skipWs u with
  | c :: rest =>
    if c = '|' then
      match ciPrefix ("bloomberg".data) (skipWs rest) with
      | some tail => dotStarDollar tail
      | none => none
    else none
  | [] => none

/-- Matcher for `r'\s*\(\d+\)\s*$'` at the start of the given suffix:
a parenthesized ordinal followed by whitespace up to the end. -/
def tryParenNum (u : List Char) : Option (List Char) :=
  match skipWs u with
  | '(' :: r =>
    if (r.takeWhile (fun c => c.isDigit)).isEmpty then none
    else
      match r.dropWhile (fun c => c.isDigit) with
      | ')' :: r2 => if r2.all pyIsSpace then some [] else none
      | _ => none
  | _ => none

/-- Matcher for `r'\s*:\s*Markets\s*Wrap\s*$'` (case-insensitive) at the
start of the given suffix. -/
def tryMarketsWrap (u : List Char) : Option (List Char) :=
  match skipWs u with
  | ':' :: r =>
    match ciPrefix ("markets".data) (skipWs r) with
    | some r2 =>
      match ciPrefix ("wrap".data) (skipWs r2) with
      | some r3 => if r3.all pyIsSpace then some [] else none
      | none => none
    | none => none
  | _ => none

/-- Python `re.sub(pattern, '', s)` for the end-anchored patterns above:
scan start positions left to right; at the first position where the
pattern matches, the match (which always extends to the `$`-adjusted end)
is deleted and only the matcher-reported tail survives.  None of the four
patterns can match inside the surviving tail, so a single substitution is
performed, exactly as in Python. -/
def reSubAnchored (pat : List Char → Option (List Char)) : List Char → List Char
  | [] => []
  | c :: cs =>
    match pat (c :: cs) with
    | some leftover => leftover
    | none => c :: reSubAnchored pat cs

/-- Lines 141-149 of `process_epub.py`: apply the four suffix-removal
substitutions in order. -/
def removeSuffixes (l : List Char) : List Char :=
  reSubAnchored tryMarketsWrap
    (reSubAnchored tryPipeBloomberg
      (reSubAnchored tryParenNum
        (reSubAnchored tryDashBloomberg l)))

/-- Python `sep in s` / `s.split(sep)[0]`: the part of `s` before the first
occurrence of `sep`, or `none` when `sep` does not occur. -/
def splitFirst? (sep : List Char) : List Char → Option (List Char)
  | [] => if sep.isEmpty then some [] else none
  | c :: cs =>
    if sep.isPrefixOf (c :: cs) then some []
    else Option.map (fun p => c :: p) (splitFirst? sep cs)

/-- One iteration of the break-point loop (lines 157-162): if `sep` occurs
in `t` and the first part has length in `[20, maxLen]`, return it
stripped. -/
def tryBreak (sep : List Char) (t : List Char) (maxLen : Nat) : Option (List Char) :=
  match splitFirst? sep t with
  | some p0 => if 20 ≤ p0.length ∧ p0.length ≤ maxLen then some (pyStrip p0) else none
  | none => none

/-- The break-point stage (lines 156-162): try the four separators
`[":", " - ", " – ", ", "]` in order; a separator that occurs but yields a
part outside `[20, maxLen]` falls through to the next separator. -/
def breakStage (t : List Char) (maxLen : Nat) : Option (List Char) :=
  match tryBreak (":".data) t maxLen with
  | some r => some r
  | none =>
    match tryBreak (" - ".data) t maxLen with
    | some r => some r
    | none =>
      match tryBreak (" – ".data) t maxLen with
      | some r => some r
      | none => tryBreak (", ".data) t maxLen

/-- Python slicing `l[:k]` for an `Int` bound `k`: a nonnegative bound is a
prefix; a negative bound drops `|k|` characters from the end. -/
def pySliceTo (l : List Char) (k : Int) : List Char :=
  if 0 ≤ k then l.take k.toNat else l.take (l.length - (-k).toNat)

/-- Python `s.rfind(c)`: index of the last occurrence of `c`, or `-1`. -/
def pyRfind (c : Char) (l : List Char) : Int :=
  match l.reverse.findIdx? (fun x => x = c) with
  | some j => (l.length : Int) - 1 - j
  | none => -1

/-- The three-dot ellipsis marker appended by the hard-truncate branch. -/
def ellipsis : List Char := ['.', '.', '.']

/-- `smart_shorten_title` (lines 129-173 of `process_epub.py`) on a list of
characters.  Stage 1: suffix removal; stage 2: return stripped if within
the bound; stage 3: break-point split; stage 4: hard truncation at
`title[:max_len-3]` with a word-boundary cut when the last space sits past
`0.6 * max_len`, then an appended ellipsis. -/
def shortenL (title : List Char) (maxLen : Nat) : List Char :=
  let t := removeSuffixes title
  if t.length ≤ maxLen then pyStrip t
  else
    match breakStage t maxLen with
    | some r => r
    | none =>
      if maxLen < t.length then
        let truncated := pySliceTo t ((maxLen : Int) - 3)
        let lastSpace := pyRfind ' ' truncated
        let truncated2 :=
          if 3 * (maxLen : Int) < 5 * lastSpace then truncated.take lastSpace.toNat
          else truncated
        pyStrip truncated2 ++ ellipsis
      else pyStrip t

/-- `smart_shorten_title` at the `String` level; the default bound is the
module constant `MAX_TITLE_LENGTH = 50`. -/
def smart_shorten_title (title : String) (maxLen : Nat := 50) : String :=
  String.mk (shortenL title.data maxLen)

/-- Stage 1 of `smart_shorten_title` at the `String` level. -/
def removeSuffixesS (s : String) : String := String.mk (removeSuffixes s.data)

/-- `str.strip()` at the `String` level. -/
def pyStripS (s : String) : String := String.mk (pyStrip s.data)

/-- The break-point stage at the `String` level. -/
def breakStageS (s : String) (maxLen : Nat) : Option String :=
  Option.map String.mk (breakStage s.data maxLen)

/-! ### Structural lemmas about `pyStrip` -/

/-- `pyStrip` is trailing-strip-after-leading-strip, phrased with Mathlib's
`List.rdropWhile`. -/
theorem pyStrip_eq_rdrop (l : List Char) :
    pyStrip l = List.rdropWhile pyIsSpace (l.dropWhile pyIsSpace) := rfl

theorem length_pyStrip_le (l : List Char) : (pyStrip l).length ≤ l.length := by
  rw [pyStrip_eq_rdrop]
  exact le_trans (List.rdropWhile_prefix _ _).length_le
    (List.dropWhile_suffix _).length_le

theorem dropWhile_eq_self_of_head? {p : Char → Bool} {l : List Char}
    (h : ∀ c, l.head? = some c → p c = false) : l.dropWhile p = l := by
  cases l with
  | nil => rfl
  | cons c cs => simp [List.dropWhile_cons, h c rfl]

theorem pyStrip_eq_self {l : List Char}
    (h1 : ∀ c, l.head? = some c → pyIsSpace c = false)
    (h2 : ∀ c, l.reverse.head? = some c → pyIsSpace c = false) :
    pyStrip l = l := by
  unfold pyStrip
  rw [dropWhile_eq_self_of_head? h1, dropWhile_eq_self_of_head? h2,
    List.reverse_reverse]

theorem pyStrip_head?_not (l : List Char) (c : Char)
    (h : (pyStrip l).head? = some c) : pyIsSpace c = false := by
  have hrw : (pyStrip l).head? =
      ((l.dropWhile pyIsSpace).reverse.dropWhile pyIsSpace).getLast? := by
    unfold pyStrip; rw [List.head?_reverse]
  obtain ⟨s, hs⟩ := List.dropWhile_suffix (l := (l.dropWhile pyIsSpace).reverse)
    (p := pyIsSpace)
  have hlast : ((l.dropWhile pyIsSpace).reverse.dropWhile pyIsSpace).getLast? =
      some c → (l.dropWhile pyIsSpace).head? = some c := by
    intro hg
    have : (s ++ (l.dropWhile pyIsSpace).reverse.dropWhile pyIsSpace).getLast? =
        some c := by
      rw [List.getLast?_append, hg]; rfl
    rw [hs, List.getLast?_reverse] at this
    exact this
  have hc : (l.dropWhile pyIsSpace).head? = some c := by
    apply hlast; rw [← hrw]; exact h
  have hd := List.head?_dropWhile_not pyIsSpace l
  rw [hc] at hd
  exact hd

theorem pyStrip_reverse_head?_not (l : List Char) (c : Char)
    (h : (pyStrip l).reverse.head? = some c) : pyIsSpace c = false := by
  have hrw : (pyStrip l).reverse =
      (l.dropWhile pyIsSpace).reverse.dropWhile pyIsSpace := by
    unfold pyStrip; rw [List.reverse_reverse]
  rw [hrw] at h
  have hd := List.head?_dropWhile_not pyIsSpace (l.dropWhile pyIsSpace).reverse
  rw [h] at hd
  exact hd

theorem pyStrip_idem (l : List Char) : pyStrip (pyStrip l) = pyStrip l :=
  pyStrip_eq_self (pyStrip_head?_not l) (pyStrip_reverse_head?_not l)

/-- A stripped string with an appended ellipsis is already stripped. -/
theorem pyStrip_strip_append_ellipsis (x : List Char) :
    pyStrip (pyStrip x ++ ellipsis) = pyStrip x ++ ellipsis := by
  apply pyStrip_eq_self
  · intro c h
    rw [List.head?_append] at h
    cases hx : (pyStrip x).head? with
    | some a =>
      rw [hx] at h
      have : a = c := by simpa [Option.or] using h
      exact this ▸ pyStrip_head?_not x a hx
    | none =>
      rw [hx] at h
      have : c = '.' := by simpa [Option.or, ellipsis] using h.symm
      subst this; decide
  · intro c h
    rw [List.reverse_append] at h
    have : c = '.' := by simpa [ellipsis] using h.symm
    subst this; decide

/-! ### The two key invariants of `smart_shorten_title` -/

theorem tryBreak_some {sep t : List Char} {maxLen : Nat} {r : List Char}
    (h : tryBreak sep t maxLen = some r) :
    ∃ p0, r = pyStrip p0 ∧ p0.length ≤ maxLen := by
  unfold tryBreak at h
  cases hs : splitFirst? sep t with
  | none => rw [hs] at h; cases h
  | some p0 =>
    rw [hs] at h
    dsimp only at h
    by_cases hc : 20 ≤ p0.length ∧ p0.length ≤ maxLen
    · rw [if_pos hc] at h
      exact ⟨p0, (Option.some.inj h).symm, hc.2⟩
    · rw [if_neg hc] at h; cases h

theorem breakStage_some {t : List Char} {maxLen : Nat} {r : List Char}
    (h : breakStage t maxLen = some r) :
    ∃ p0, r = pyStrip p0 ∧ p0.length ≤ maxLen := by
  unfold breakStage at h
  cases h1 : tryBreak (":".data) t maxLen with
  | some r1 => rw [h1] at h; exact (Option.some.inj h) ▸ tryBreak_some h1
  | none =>
    rw [h1] at h
    cases h2 : tryBreak (" - ".data) t maxLen with
    | some r2 => rw [h2] at h; exact (Option.some.inj h) ▸ tryBreak_some h2
    | none =>
      rw [h2] at h
      cases h3 : tryBreak (" – ".data) t maxLen with
      | some r3 => rw [h3] at h; exact (Option.some.inj h) ▸ tryBreak_some h3
      | none => rw [h3] at h; exact tryBreak_some h

/-- Every result of the shortener has length at most the bound, as long as
the bound is at least 3 (so that the `title[:max_len-3]` slice is a
genuine prefix). -/
theorem length_shortenL_le (t : List Char) (n : Nat) (h : 3 ≤ n) :
    (shortenL t n).length ≤ n := by
  simp only [shortenL]
  by_cases h1 : (removeSuffixes t).length ≤ n
  · rw [if_pos h1]
    exact le_trans (length_pyStrip_le _) h1
  · rw [if_neg h1]
    cases hb : breakStage (removeSuffixes t) n with
    | some r =>
      simp only []
      obtain ⟨p0, hr, hp⟩ := breakStage_some hb
      subst hr
      exact le_trans (length_pyStrip_le _) hp
    | none =>
      simp only []
      rw [if_pos (by omega : n < (removeSuffixes t).length)]
      have htr : (pySliceTo (removeSuffixes t) ((n : Int) - 3)).length ≤ n - 3 := by
        unfold pySliceTo
        rw [if_pos (by omega : (0 : Int) ≤ (n : Int) - 3)]
        have hk : ((n : Int) - 3).toNat = n - 3 := by omega
        rw [hk]
        simp [List.length_take]
      rw [List.length_append]
      have h3 : ellipsis.length = 3 := rfl
      rw [h3]
      set tr := pySliceTo (removeSuffixes t) ((n : Int) - 3) with htrdef
      by_cases hcond : 3 * (n : Int) < 5 * pyRfind ' ' tr
      · rw [if_pos hcond]
        have : (pyStrip (tr.take (pyRfind ' ' tr).toNat)).length ≤ tr.length := by
          refine le_trans (length_pyStrip_le _) ?_
          simp [List.length_take]
        omega
      · rw [if_neg hcond]
        have := length_pyStrip_le tr
        omega

/-- Every result of the shortener is already whitespace-stripped. -/
theorem pyStrip_shortenL (t : List Char) (n : Nat) :
    pyStrip (shortenL t n) = shortenL t n := by
  simp only [shortenL]
  by_cases h1 : (removeSuffixes t).length ≤ n
  · rw [if_pos h1]; exact pyStrip_idem _
  · rw [if_neg h1]
    cases hb : breakStage (removeSuffixes t) n with
    | some r =>
      simp only []
      obtain ⟨p0, hr, _⟩ := breakStage_some hb
      subst hr
      exact pyStrip_idem _
    | none =>
      simp only []
      rw [if_pos (by omega : n < (removeSuffixes t).length)]
      exact pyStrip_strip_append_ellipsis _

/-- Auxiliary: the shortener fixes any input that is already within the
bound, suffix-free and stripped. -/
theorem shortenL_fix (s : List Char) (n : Nat) (hlen : s.length ≤ n)
    (hfix : removeSuffixes s = s) (hstr : pyStrip s = s) : shortenL s n = s := by
  simp only [shortenL, hfix]
  rw [if_pos hlen]
  exact hstr

/-! ### Claims C1-C4: the title shortener -/

/-- Claim C1 is false as stated: `smart_shorten_title` is not idempotent at
the bound 50.  On `"Short (1): Markets Wrap"` the first application strips
the `": Markets Wrap"` suffix, leaving `"Short (1)"`, and a second
application then strips the parenthesized ordinal `" (1)"` that the first
pass could no longer see (the ordinal pattern runs before the
Markets-Wrap pattern), yielding `"Short"`. -/
theorem C1_counterexample :
    smart_shorten_title (smart_shorten_title ("Short (1): Markets Wrap") 50) 50 ≠
      smart_shorten_title ("Short (1): Markets Wrap") 50 ∧
    smart_shorten_title ("Short (1): Markets Wrap") 50 = ("Short (1)") ∧
    smart_shorten_title ("Short (1)") 50 = ("Short") := by
  exact ⟨by decide, by decide, by decide⟩

/-- Claim C1 (amended): title shortening is idempotent, for every string `t`
and bound `n ≥ 10`, whenever the suffix-stripping stage leaves the
shortened title fixed, i.e. `removeSuffixesS (shorten t n) = shorten t n`.
Without that proviso a second application can strip further boilerplate
(ordinal or suffix patterns) that the first application's own suffix pass
had already gone past. -/
theorem C1_shorten_idempotent_amended (t : String) (n : Nat) (h10 : 10 ≤ n)
    (hfix : removeSuffixesS (smart_shorten_title t n) = smart_shorten_title t n) :
    smart_shorten_title (smart_shorten_title t n) n = smart_shorten_title t n := by
  have h1 : (shortenL t.data n).length ≤ n := length_shortenL_le _ _ (by omega)
  have h2 : pyStrip (shortenL t.data n) = shortenL t.data n := pyStrip_shortenL t.data n
  have hfix' : removeSuffixes (shortenL t.data n) = shortenL t.data n :=
    congrArg String.data hfix
  show String.mk (shortenL (shortenL t.data n) n) = String.mk (shortenL t.data n)
  rw [shortenL_fix _ _ h1 hfix' h2]

/-- Witness for the amended C1 at the concrete input `"Hello World"`,
bound 10. -/
theorem C1_shorten_idempotent_amended_witness :
    (10 : Nat) ≤ 10 ∧
    removeSuffixesS (smart_shorten_title ("Hello World") 10) =
      smart_shorten_title ("Hello World") 10 ∧
    smart_shorten_title (smart_shorten_title ("Hello World") 10) 10 =
      smart_shorten_title ("Hello World") 10 :=
  ⟨by decide, by decide,
    C1_shorten_idempotent_amended ("Hello World") 10 (by decide) (by decide)⟩

/-- Claim C2 is false as stated for arbitrary bounds: at `max_len = 0` the
hard-truncate branch computes `title[:-3]` (Python negative slicing drops
three characters from the END), finds a space past the `0.6 * max_len = 0`
threshold, and returns a 12-character result, exceeding the bound 0. -/
theorem C2_counterexample :
    smart_shorten_title ("aaaa aaaa aaaa") 0 = ("aaaa aaaa...") ∧
    ¬((smart_shorten_title ("aaaa aaaa aaaa") 0).length ≤ 0) := by
  exact ⟨by decide, by decide⟩

/-- Claim C2 (amended): for every string `t` and every bound `n ≥ 3`,
`len(smart_shorten_title(t, n)) ≤ n`; in particular the hard-truncate
branch (first `n - 3` characters plus an appended ellipsis) produces a
result of length at most `n`.  For `n < 3` the Python slice `title[:n-3]`
is a negative slice and the bound fails. -/
theorem C2_length_bound_amended (t : String) (n : Nat) (h : 3 ≤ n) :
    (smart_shorten_title t n).length ≤ n := by
  show (shortenL t.data n).length ≤ n
  exact length_shortenL_le _ _ h

/-- Witness for the amended C2 at a concrete over-long title, bound 50. -/
theorem C2_length_bound_amended_witness :
    (3 : Nat) ≤ 50 ∧
    (smart_shorten_title
      ("A Very Long Article Title That Exceeds The Fifty Character Limit For Display")
      50).length ≤ 50 :=
  ⟨by decide,
    C2_length_bound_amended
      ("A Very Long Article Title That Exceeds The Fifty Character Limit For Display")
      50 (by decide)⟩

/-- Claim C3 (confirmed): suffix stripping precedes the length check.  For
every title that exceeds the bound, as soon as the suffix-stripped text
fits within the bound the function returns that text trimmed of
surrounding whitespace, bypassing the break-point and ellipsis stages. -/
theorem C3_suffix_strip_precedes (t : String) (n : Nat)
    (_hlong : n < t.length) (hfit : (removeSuffixesS t).length ≤ n) :
    smart_shorten_title t n = pyStripS (removeSuffixesS t) := by
  have hfit' : (removeSuffixes t.data).length ≤ n := hfit
  show String.mk (shortenL t.data n) = String.mk (pyStrip (removeSuffixes t.data))
  have hl : shortenL t.data n = pyStrip (removeSuffixes t.data) := by
    simp only [shortenL]
    rw [if_pos hfit']
  rw [hl]

/-- Witness for C3 at the spec's own example title, bound 30 (the title has
40 characters, the pre-suffix text 15). -/
theorem C3_suffix_strip_precedes_witness :
    (30 : Nat) < ("Fed Hikes Rates - Bloomberg Markets Wrap" : String).length ∧
    (removeSuffixesS ("Fed Hikes Rates - Bloomberg Markets Wrap")).length ≤ 30 ∧
    smart_shorten_title ("Fed Hikes Rates - Bloomberg Markets Wrap") 30 =
      pyStripS (removeSuffixesS ("Fed Hikes Rates - Bloomberg Markets Wrap")) ∧
    smart_shorten_title ("Fed Hikes Rates - Bloomberg Markets Wrap") 30 =
      ("Fed Hikes Rates") :=
  ⟨by decide, by decide,
    C3_suffix_strip_precedes ("Fed Hikes Rates - Bloomberg Markets Wrap") 30
      (by decide) (by decide),
    by decide⟩

/-- Claim-side description of the hard-truncate stage (spec §4.4 step 4 /
claim C4): take the first `max_len - 3` characters; if the last space of
that window sits past the `0.6 * max_len` threshold (i.e. within the last
40 percent), cut back to that space; append an ellipsis; trim. -/
def hardTruncateSpec (t : List Char) (n : Nat) : List Char :=
  let w := t.take (n - 3)
  let ls := pyRfind ' ' w
  pyStrip (if 3 * (n : Int) < 5 * ls then w.take ls.toNat else w) ++ ellipsis

/-- The claim-side hard-truncate description at the `String` level. -/
def hardTruncateSpecS (s : String) (n : Nat) : String :=
  String.mk (hardTruncateSpec s.data n)

/-- Claim C4 (confirmed): every title that reaches the final stage of
`smart_shorten_title` (its suffix-stripped form still exceeds the bound
and the break-point stage finds nothing) is hard-truncated exactly as the
claim describes: first `max_len - 3` characters, a word-boundary cut when
a space lies beyond `0.6 * max_len`, an appended ellipsis, and a final
trim.  Stated for the meaningful bounds `max_len ≥ 3`. -/
theorem C4_hard_truncate (t : String) (n : Nat) (h3 : 3 ≤ n)
    (hlong : n < (removeSuffixesS t).length)
    (hbreak : breakStageS (removeSuffixesS t) n = none) :
    smart_shorten_title t n = hardTruncateSpecS (removeSuffixesS t) n := by
  have hlong' : n < (removeSuffixes t.data).length := hlong
  have hbreak' : breakStage (removeSuffixes t.data) n = none := by
    cases hb : breakStage (removeSuffixes t.data) n with
    | none => rfl
    | some r =>
      have : breakStageS (removeSuffixesS t) n = some (String.mk r) := by
        show Option.map String.mk (breakStage (removeSuffixes t.data) n) = _
        rw [hb]; rfl
      rw [this] at hbreak; cases hbreak
  show String.mk (shortenL t.data n) = String.mk (hardTruncateSpec (removeSuffixes t.data) n)
  have hsl : pySliceTo (removeSuffixes t.data) ((n : Int) - 3) =
      (removeSuffixes t.data).take (n - 3) := by
    unfold pySliceTo
    rw [if_pos (by omega : (0 : Int) ≤ (n : Int) - 3)]
    congr 1
    omega
  have hl : shortenL t.data n = hardTruncateSpec (removeSuffixes t.data) n := by
    simp only [shortenL]
    rw [if_neg (by omega : ¬((removeSuffixes t.data).length ≤ n)), hbreak']
    simp only []
    rw [if_pos hlong']
    simp only [hardTruncateSpec]
    rw [hsl]
  rw [hl]

/-- Witness for C4 at `"Hello World"`, bound 10: the title reaches the hard
truncate, whose last space at index 5 is below the threshold 6, giving
`"Hello W..."`. -/
theorem C4_hard_truncate_witness :
    (3 : Nat) ≤ 10 ∧
    (10 : Nat) < (removeSuffixesS ("Hello World")).length ∧
    breakStageS (removeSuffixesS ("Hello World")) 10 = none ∧
    smart_shorten_title ("Hello World") 10 =
      hardTruncateSpecS (removeSuffixesS ("Hello World")) 10 ∧
    smart_shorten_title ("Hello World") 10 = ("Hello W...") :=
  ⟨by decide, by decide, by decide,
    C4_hard_truncate ("Hello World") 10 (by decide) (by decide) (by decide),
    by decide⟩

/-! ### Package document, media stripper, container and navigation models -/

/-- An OPF manifest `<item>`: id, href and declared media type. -/
structure ManifestItem where
  id : String
  href : String
  mediaType : String
deriving DecidableEq

/-- Logging levels of the `logging` module as used by `process_epub.py`. -/
inductive LogLevel where
  | info
  | debug
  | warning
  | error
deriving DecidableEq

/-- The parsed OPF package document as `process_epub` sees it after
`root.find(manifest)` / `root.find(spine)`: either element may be absent
(`find` returned `None`).  The spine is the ordered list of itemref
idrefs. -/
structure OpfDoc where
  manifest : Option (List ManifestItem)
  spine : Option (List String)
deriving DecidableEq

/-- List-level `isPrefixOf` on characters (Python `str.startswith`). -/
def beginsWith : List Char → List Char → Bool
  | [], _ => true
  | _ :: _, [] => false
  | a :: as, b :: bs => a = b && beginsWith as bs

/-- Python `str.endswith`. -/
def endsWithL (suf l : List Char) : Bool := beginsWith suf.reverse l.reverse

/-- Python substring containment `needle in hay`. -/
def containsSubstr (needle hay : List Char) : Bool := (splitFirst? needle hay).isSome

/-- Python `str.lower()` (ASCII case mapping). -/
def pyLower (s : String) : String := String.mk (s.data.map Char.toLower)

/-- `pathlib.PurePath.name`: the final path component (POSIX separators). -/
def pathNameL (l : List Char) : List Char :=
  l.foldl (fun acc c => if c = '/' then [] else acc ++ [c]) []

/-- `pathlib.PurePath.name` at the `String` level. -/
def pathName (p : String) : String := String.mk (pathNameL p.data)

/-- `pathlib.PurePath.suffix`: the extension of the final component,
including the dot; empty when the last dot is leading or trailing
(CPython: nonempty only when `0 < name.rfind(chr(46)) < len(name) - 1`). -/
def pathSuffix (p : String) : String :=
  let nm := pathNameL p.data
  let i := pyRfind '.' nm
  if 0 < i ∧ i < (nm.length : Int) - 1 then String.mk (nm.drop i.toNat) else ("")

/-- The fixed raster/vector extension set of `strip_images` (line 212). -/
def imageExtensions : List String :=
  [".jpg", ".jpeg", ".png", ".gif", ".svg", ".webp"]

/-- Deletion test of the file-removal loop of `strip_images` (lines
213-217): lowercased extension in the fixed set, and the lowercased file
name does not contain "cover". -/
def shouldDeleteImage (p : String) : Bool :=
  imageExtensions.contains (pyLower (pathSuffix p)) &&
    !containsSubstr ("cover".data) (pyLower (pathName p)).data

/-- Manifest-retention test of `strip_images` (lines 227-234): an item is
removed exactly when its media type starts with `image/` and its
lowercased href does not contain "cover". -/
def keepManifestItem (it : ManifestItem) : Bool :=
  !(beginsWith ("image/".data) it.mediaType.data &&
    !containsSubstr ("cover".data) (pyLower it.href).data)

/-- `strip_images` (lines 207-242) over a working tree modelled as the list
of its file paths: returns the surviving files, the filtered manifest and
the count of deleted images.  (The `<img>`-tag rewriting of markup files
acts on file contents and is outside the scope of the claims.) -/
def strip_images (files : List String) (manifest : List ManifestItem) :
    List String × List ManifestItem × Nat :=
  (files.filter (fun f => !shouldDeleteImage f),
   manifest.filter keepManifestItem,
   (files.filter (fun f => shouldDeleteImage f)).length)

/-- The spine-trimming loop (lines 350-358): collect `spine_items[:2]` and
remove each collected element from the spine in turn. -/
def remove_leading_spine (sp : List String) : List String :=
  (sp.take 2).foldl (fun acc it => acc.erase it) sp

/-- The spine-trimming stage together with the log records it emits
(`log.info` once, `log.debug` per removed item; the source contains no
`log.warning` call in this region). -/
def spineStage (sp : List String) (manifest : List ManifestItem) :
    List String × List ManifestItem × List (LogLevel × String) :=
  (remove_leading_spine sp, manifest,
   (LogLevel.info, "Removing first 2 pages from spine...") ::
     (sp.take 2).map (fun idref => (LogLevel.debug, "Removing spine item: " ++ idref)))

/-- The `ValueError` raised at line 341 when the spine element is absent. -/
def spineErrorMsg : String := "Invalid EPUB: no spine element"

/-- The `AttributeError` that `strip_images` raises at line 227 when it
calls `findall` on a `None` manifest (message paraphrased without
quotes). -/
def manifestAttrErrorMsg : String :=
  "AttributeError: NoneType object has no attribute findall"

/-- Lines 336-362 of `process_epub`: the spine presence check, the
spine-trimming loop and the image stripper, with the state they leave
behind and the error (if any) that aborts the pipeline.  The absence of
the manifest element is NOT checked at line 336; processing continues
until `strip_images` accesses the manifest, after the spine was already
trimmed and the image files already deleted. -/
def packageStage (doc : OpfDoc) (files : List String) :
    OpfDoc × List String × Option String :=
  match doc.spine with
  | none => (doc, files, some spineErrorMsg)
  | some sp =>
    let sp' := remove_leading_spine sp
    let files' := files.filter (fun f => !shouldDeleteImage f)
    match doc.manifest with
    | none => (⟨none, some sp'⟩, files', some manifestAttrErrorMsg)
    | some m => (⟨some (m.filter keepManifestItem), some sp'⟩, files', none)

/-- An entry of the output archive: path, content, and whether it was
stored uncompressed (`ZIP_STORED`) rather than deflated. -/
structure ZipEntry where
  path : String
  content : String
  stored : Bool
deriving DecidableEq

/-- `create_epub` (lines 487-515) over a source directory modelled as the
list of its files (relative path, content) in walk order: write the
root-level `mimetype` file first and uncompressed if it exists, then every
file whose final component is not named `mimetype`, deflated, under its
relative path. -/
def create_epub (src : List (String × String)) : List ZipEntry :=
  (match src.find? (fun e => e.1 = ("mimetype" : String)) with
   | some e => [⟨("mimetype"), e.2, true⟩]
   | none => []) ++
    (src.filter (fun e => pathName e.1 ≠ ("mimetype"))).map
      (fun e => ⟨e.1, e.2, false⟩)

/-- A navigation document (toc.ncx or nav.xhtml) as the rewriter sees it:
either a parse succeeding with the ordered list of its label texts, or a
parse failure. -/
inductive NavParse where
  | parsed (labels : List String)
  | malformed (err : String)
deriving DecidableEq

/-- `process_toc_ncx` (lines 425-455): on a successful parse, every
non-empty navLabel text is replaced by its shortened form (bound 50); a
parse failure is caught, logged as an error plus a warning, and the
document is left unmodified. -/
def process_toc_ncx (f : NavParse) : NavParse × List (LogLevel × String) :=
  match f with
  | NavParse.parsed labels =>
    (NavParse.parsed (labels.map (fun t => if t = ("") then t else smart_shorten_title t 50)),
     [(LogLevel.info, "Modified TOC entries")])
  | NavParse.malformed e =>
    (NavParse.malformed e,
     [(LogLevel.error, "Failed to process TOC NCX: " ++ e),
      (LogLevel.warning, "Continuing without TOC modifications")])

/-- `process_nav_xhtml` (lines 458-484): on success every anchor text (the
regex captures are non-empty) is shortened with bound 50; a failure is
caught, logged, and the document is left unmodified. -/
def process_nav_xhtml (f : NavParse) : NavParse × List (LogLevel × String) :=
  match f with
  | NavParse.parsed labels =>
    (NavParse.parsed (labels.map (fun t => smart_shorten_title t 50)),
     [(LogLevel.info, "NAV XHTML processed")])
  | NavParse.malformed e =>
    (NavParse.malformed e,
     [(LogLevel.error, "Failed to process NAV XHTML: " ++ e),
      (LogLevel.warning, "Continuing without NAV modifications")])

/-- Lines 379-388 of `process_epub`: process toc.ncx if present, then
nav.xhtml if present (`none` models an absent file, a skip).  The `Bool`
records whether the stage aborted the pipeline; both helpers catch all
exceptions, so it is always `false`. -/
def navStage (ncx nav : Option NavParse) :
    Option NavParse × Option NavParse × Bool :=
  (ncx.map (fun f => (process_toc_ncx f).1),
   nav.map (fun f => (process_nav_xhtml f).1),
   false)

/-- Lines 300-313 of `process_epub`: the first `.opf` file in walk order,
or the fatal `ValueError` when none exists. -/
def findOpfStage (files : List String) : Except String String :=
  match files.find? (fun f => endsWithL (".opf".data) f.data) with
  | some p => Except.ok p
  | none => Except.error ("No .opf file found in EPUB")

/-- The spine-trimming loop removes exactly the first two entries: erasing
the collected `spine_items[:2]` one by one equals dropping two. -/
theorem remove_leading_spine_eq_drop (sp : List String) :
    remove_leading_spine sp = sp.drop 2 := by
  match sp with
  | [] => rfl
  | [a] => simp [remove_leading_spine, List.erase_cons_head]
  | a :: b :: t => simp [remove_leading_spine, List.erase_cons_head]

/-- Debug log records are never warnings. -/
theorem debugLogs_no_warning (l : List String) (pre : String) :
    (l.map (fun idref => (LogLevel.debug, pre ++ idref))).filter
      (fun e => e.1 = LogLevel.warning) = [] := by
  induction l with
  | nil => rfl
  | cons a t ih => simp only [List.map_cons, List.filter_cons]; simp [ih]

/-! ### Claims C5-C10: the pipeline stages -/

/-- Claim C5 is false for its manifest half: with the manifest element
absent but a spine present, the parse-stage check (lines 336-341 check
only the spine) passes, the spine is trimmed, the image file is deleted,
and only then does the pipeline die with an `AttributeError` when
`strip_images` touches the `None` manifest — it does not abort at the
parse point with the `MalformedPackage`-style `ValueError`. -/
theorem C5_counterexample :
    packageStage ⟨none, some [("a"), ("b"), ("c")]⟩ [("x.jpg")] =
      (⟨none, some [("c")]⟩, [], some manifestAttrErrorMsg) ∧
    (packageStage ⟨none, some [("a"), ("b"), ("c")]⟩ [("x.jpg")]).2.2 ≠
      some spineErrorMsg := by
  exact ⟨by decide, by decide⟩

/-- Claim C5 (amended): the parse stage fails fatally (ValueError, the
code's `MalformedPackage` analogue) exactly when the spine element is
absent.  A missing manifest is NOT checked at parse time: the pipeline
continues through spine trimming and image-file deletion, and aborts with
an `AttributeError` only when `strip_images` first uses the manifest. -/
theorem C5_manifest_check_amended (doc doc2 : OpfDoc) (files files2 : List String)
    (sp : List String) (h1 : doc.spine = some sp) (h2 : doc.manifest = none)
    (h3 : doc2.spine = none) :
    packageStage doc files =
      (⟨none, some (sp.drop 2)⟩, files.filter (fun f => !shouldDeleteImage f),
        some manifestAttrErrorMsg) ∧
    packageStage doc2 files2 = (doc2, files2, some spineErrorMsg) := by
  constructor
  · cases doc with
    | mk m s =>
      simp only at h1 h2
      subst h1; subst h2
      simp [packageStage, remove_leading_spine_eq_drop]
  · cases doc2 with
    | mk m2 s2 =>
      simp only at h3
      subst h3
      simp [packageStage]

/-- Witness for the amended C5 at a concrete manifest-less document and a
concrete spine-less document. -/
theorem C5_manifest_check_amended_witness :
    packageStage ⟨none, some [("p1"), ("p2"), ("art1"), ("art2")]⟩ [("y.png")] =
      (⟨none, some [("art1"), ("art2")]⟩, [], some manifestAttrErrorMsg) ∧
    packageStage ⟨some [], none⟩ [] = (⟨some [], none⟩, [], some spineErrorMsg) :=
  C5_manifest_check_amended ⟨none, some [("p1"), ("p2"), ("art1"), ("art2")]⟩
    ⟨some [], none⟩ [("y.png")] [] [("p1"), ("p2"), ("art1"), ("art2")] rfl rfl rfl

/-- Claim C6's warning half is false: trimming the 1-entry spine with the
pipeline's n = 2 empties the spine with no fatal error, but emits NO
warning record — the source logs only an info line and per-item debug
lines here. -/
theorem C6_counterexample :
    spineStage [("only")] [] =
      ([], [], [(LogLevel.info, "Removing first 2 pages from spine..."),
        (LogLevel.debug, "Removing spine item: only")]) ∧
    (spineStage [("only")] []).2.2.filter (fun e => e.1 = LogLevel.warning) = [] := by
  exact ⟨by decide, by decide⟩

/-- Claim C6 (amended): for a spine of `k` entries and the pipeline's trim
count 2, the resulting spine is `drop 2` of the original — empty when
`2 ≥ k`, else exactly `k - 2` entries in original relative order; the
manifest is untouched; and the situation is silent: no fatal error and
also no warning record (contrary to the claim's "reported as a
warning"). -/
theorem C6_spine_trimming_amended (sp : List String) (m : List ManifestItem) :
    (spineStage sp m).1 = sp.drop 2 ∧
    (spineStage sp m).1.length = sp.length - 2 ∧
    (spineStage sp m).2.1 = m ∧
    (spineStage sp m).2.2.filter (fun e => e.1 = LogLevel.warning) = [] := by
  have hd : (spineStage sp m).1 = sp.drop 2 := remove_leading_spine_eq_drop sp
  refine ⟨hd, ?_, rfl, ?_⟩
  · rw [hd]; simp [List.length_drop]
  · show ((LogLevel.info, _) ::
      (sp.take 2).map (fun idref => (LogLevel.debug, ("Removing spine item: ") ++ idref))).filter
        (fun e => e.1 = LogLevel.warning) = []
    rw [List.filter_cons]
    simpa using debugLogs_no_warning (sp.take 2) ("Removing spine item: ")

/-- Claim C7 is false under its literal reading: `strip_images` deletes
`art/PHOTO.JPG` although its extension `.JPG` is not literally in the set
{jpg, jpeg, png, gif, svg, webp} (the code compares lowercased
extensions), and keeps the manifest item with href `img/COVER.jpg`
although that href does not literally contain the substring "cover" (the
code lowercases hrefs before the containment test, as it does
file names). -/
theorem C7_counterexample :
    strip_images [("art/PHOTO.JPG")] [⟨("c1"), ("img/COVER.jpg"), ("image/jpeg")⟩] =
      ([], [⟨("c1"), ("img/COVER.jpg"), ("image/jpeg")⟩], 1) ∧
    pathSuffix ("art/PHOTO.JPG") = (".JPG") ∧
    imageExtensions.contains (".JPG") = false ∧
    containsSubstr ("cover".data) ("img/COVER.jpg".data) = false := by
  exact ⟨by decide, by decide, by decide, by decide⟩

/-- Modelled from the amended claim C7: a file is deleted iff its
lowercased extension is in {jpg, jpeg, png, gif, svg, webp} and its
lowercased file name does not contain "cover". -/
def claimC7Deletes (p : String) : Bool :=
  imageExtensions.contains (pyLower (pathSuffix p)) &&
    !containsSubstr ("cover".data) (pyLower (pathName p)).data

/-- Modelled from the amended claim C7: a manifest item is removed iff its
declared media type begins with `image/` and its lowercased href does not
contain "cover". -/
def claimC7Removes (it : ManifestItem) : Bool :=
  beginsWith ("image/".data) it.mediaType.data &&
    !containsSubstr ("cover".data) (pyLower it.href).data

/-- Claim C7 (amended): `strip_images` deletes exactly the files whose
lowercased extension is in {jpg, jpeg, png, gif, svg, webp} and whose
lowercased file name does not contain "cover", and removes from the
manifest exactly the items whose declared media type begins with `image/`
and whose lowercased href does not contain "cover"; the returned count is
the number of deleted files. -/
theorem C7_strip_images_amended (files : List String) (m : List ManifestItem)
    (f : String) (it : ManifestItem) :
    (f ∈ (strip_images files m).1 ↔ f ∈ files ∧ claimC7Deletes f = false) ∧
    (it ∈ (strip_images files m).2.1 ↔ it ∈ m ∧ claimC7Removes it = false) ∧
    (strip_images files m).2.2 =
      (files.filter (fun f2 => claimC7Deletes f2)).length := by
  refine ⟨?_, ?_, rfl⟩
  · show f ∈ files.filter (fun f2 => !shouldDeleteImage f2) ↔ _
    rw [List.mem_filter]
    cases he : imageExtensions.contains (pyLower (pathSuffix f)) <;>
      cases hc : containsSubstr ("cover".data) (pyLower (pathName f)).data <;>
        simp [claimC7Deletes, shouldDeleteImage, he, hc]
  · show it ∈ m.filter keepManifestItem ↔ _
    rw [List.mem_filter]
    cases hb : beginsWith ("image/".data) it.mediaType.data <;>
      cases hc : containsSubstr ("cover".data) (pyLower it.href).data <;>
        simp [claimC7Removes, keepManifestItem, hb, hc]

/-- Claim C8 is false as stated: the packer writes the source directory's
`mimetype` file verbatim, so its first entry's content is whatever that
file holds (here `text/plain`, not `application/epub+zip`); moreover a
nested file whose final component is named `mimetype` is silently skipped
by the walk loop (line 502) and so is NOT written to the archive at
all. -/
theorem C8_counterexample :
    create_epub
        [(("mimetype"), ("text/plain")), (("a.txt"), ("hello")),
          (("sub/mimetype"), ("zzz"))] =
      [⟨("mimetype"), ("text/plain"), true⟩, ⟨("a.txt"), ("hello"), false⟩] ∧
    ("text/plain" : String) ≠ ("application/epub+zip") ∧
    (∀ z ∈ create_epub
        [(("mimetype"), ("text/plain")), (("a.txt"), ("hello")),
          (("sub/mimetype"), ("zzz"))],
      z.path ≠ ("sub/mimetype")) := by
  exact ⟨by decide, by decide, by decide⟩

/-- Claim C8 (amended): if the source directory contains a root-level
`mimetype` file, the packer writes it as the very first archive entry,
stored uncompressed, with that file's content verbatim (for a conformant
processed EPUB this content is `application/epub+zip`, but the packer
does not enforce it); every other file except those whose final path
component is `mimetype` is then written deflated under its relative path,
in walk order.  If no root-level `mimetype` exists, no mimetype entry is
written. -/
theorem C8_create_epub_amended (src src2 : List (String × String))
    (me : String × String)
    (h : src.find? (fun e => e.1 = ("mimetype" : String)) = some me)
    (h2 : src2.find? (fun e => e.1 = ("mimetype" : String)) = none) :
    (create_epub src =
      ⟨("mimetype"), me.2, true⟩ ::
        (src.filter (fun e => pathName e.1 ≠ ("mimetype"))).map
          (fun e => ⟨e.1, e.2, false⟩)) ∧
    (create_epub src).head? = some ⟨("mimetype"), me.2, true⟩ ∧
    (∀ z ∈ (create_epub src).tail, z.stored = false) ∧
    create_epub src2 =
      (src2.filter (fun e => pathName e.1 ≠ ("mimetype"))).map
        (fun e => ⟨e.1, e.2, false⟩) ∧
    ∀ z ∈ create_epub src2, z.path ≠ ("mimetype") ∧ z.stored = false := by
  have h1 : create_epub src =
      ⟨("mimetype"), me.2, true⟩ ::
        (src.filter (fun e => pathName e.1 ≠ ("mimetype"))).map
          (fun e => ⟨e.1, e.2, false⟩) := by
    unfold create_epub
    rw [h]
    rfl
  have h3 : create_epub src2 =
      (src2.filter (fun e => pathName e.1 ≠ ("mimetype"))).map
        (fun e => ⟨e.1, e.2, false⟩) := by
    unfold create_epub
    rw [h2]
    exact List.nil_append _
  refine ⟨h1, ?_, ?_, h3, ?_⟩
  · rw [h1]; rfl
  · rw [h1]
    intro z hz
    simp only [List.tail_cons, List.mem_map] at hz
    obtain ⟨e, _, he⟩ := hz
    rw [← he]
  · rw [h3]
    intro z hz
    simp only [List.mem_map] at hz
    obtain ⟨e, hemem, he⟩ := hz
    rw [List.mem_filter] at hemem
    have hne : pathName e.1 ≠ ("mimetype") := of_decide_eq_true hemem.2
    constructor
    · rw [← he]
      intro hcontra
      dsimp only at hcontra
      apply hne
      rw [hcontra]
      decide
    · rw [← he]

/-- Witness for the amended C8 at a concrete two-file source directory with
a root mimetype and a one-file source directory without one. -/
theorem C8_create_epub_amended_witness :
    create_epub [(("mimetype"), ("application/epub+zip")), (("OEBPS/a.xhtml"), ("x"))] =
      [⟨("mimetype"), ("application/epub+zip"), true⟩,
        ⟨("OEBPS/a.xhtml"), ("x"), false⟩] ∧
    (create_epub [(("mimetype"), ("application/epub+zip")), (("OEBPS/a.xhtml"), ("x"))]).head? =
      some ⟨("mimetype"), ("application/epub+zip"), true⟩ ∧
    create_epub [(("OEBPS/b.xhtml"), ("y"))] = [⟨("OEBPS/b.xhtml"), ("y"), false⟩] ∧
    ∀ z ∈ create_epub [(("OEBPS/b.xhtml"), ("y"))],
      z.path ≠ ("mimetype") ∧ z.stored = false :=
  ⟨(C8_create_epub_amended
      [(("mimetype"), ("application/epub+zip")), (("OEBPS/a.xhtml"), ("x"))]
      [(("OEBPS/b.xhtml"), ("y"))]
      (("mimetype"), ("application/epub+zip")) (by decide) (by decide)).1,
    (C8_create_epub_amended
      [(("mimetype"), ("application/epub+zip")), (("OEBPS/a.xhtml"), ("x"))]
      [(("OEBPS/b.xhtml"), ("y"))]
      (("mimetype"), ("application/epub+zip")) (by decide) (by decide)).2.1,
    (C8_create_epub_amended
      [(("mimetype"), ("application/epub+zip")), (("OEBPS/a.xhtml"), ("x"))]
      [(("OEBPS/b.xhtml"), ("y"))]
      (("mimetype"), ("application/epub+zip")) (by decide) (by decide)).2.2.2.1,
    (C8_create_epub_amended
      [(("mimetype"), ("application/epub+zip")), (("OEBPS/a.xhtml"), ("x"))]
      [(("OEBPS/b.xhtml"), ("y"))]
      (("mimetype"), ("application/epub+zip")) (by decide) (by decide)).2.2.2.2⟩

/-- Claim C9 (confirmed): navigation rewriting is independent and
non-fatal.  The stage never aborts; an absent file is a skip; the result
for one navigation document does not depend on the other's presence or
content; a parse failure leaves that document unmodified (and is logged
as an error plus a warning); a successful parse has each label
shortened. -/
theorem C9_navigation_independent (ncx ncx2 nav nav2 : Option NavParse)
    (e e2 : String) (ls ls2 : List String) :
    (navStage ncx nav).2.2 = false ∧
    (navStage none nav).1 = none ∧
    (navStage ncx none).2.1 = none ∧
    (navStage ncx nav).1 = (navStage ncx nav2).1 ∧
    (navStage ncx nav).2.1 = (navStage ncx2 nav).2.1 ∧
    (navStage (some (NavParse.malformed e)) nav).1 =
      some (NavParse.malformed e) ∧
    (navStage ncx (some (NavParse.malformed e2))).2.1 =
      some (NavParse.malformed e2) ∧
    (process_toc_ncx (NavParse.malformed e)).2 =
      [(LogLevel.error, ("Failed to process TOC NCX: ") ++ e),
        (LogLevel.warning, "Continuing without TOC modifications")] ∧
    (navStage (some (NavParse.parsed ls)) nav).1 =
      some (NavParse.parsed
        (ls.map (fun t => if t = ("") then t else smart_shorten_title t 50))) ∧
    (navStage ncx (some (NavParse.parsed ls2))).2.1 =
      some (NavParse.parsed (ls2.map (fun t => smart_shorten_title t 50))) :=
  ⟨rfl, rfl, rfl, rfl, rfl, rfl, rfl, rfl, rfl, rfl⟩

/-- Claim C10 (confirmed): when the extracted tree contains no `.opf` file,
the pipeline fails fatally with the `ValueError` message
`No .opf file found in EPUB` before any later stage runs (so no output
file is produced), and this failure mode is distinct from every outcome
of the package-parsing stage (whose errors concern a missing spine or the
manifest crash). -/
theorem C10_no_opf_fatal (files : List String)
    (h : files.all (fun f => !endsWithL (".opf".data) f.data) = true) :
    findOpfStage files = Except.error ("No .opf file found in EPUB") ∧
    ∀ (doc : OpfDoc) (fs : List String),
      (packageStage doc fs).2.2 ≠ some ("No .opf file found in EPUB") := by
  constructor
  · unfold findOpfStage
    have hn : files.find? (fun f => endsWithL (".opf".data) f.data) = none := by
      rw [List.find?_eq_none]
      intro x hx
      have hb := (List.all_eq_true.mp h) x hx
      simpa using hb
    rw [hn]
  · intro doc fs
    cases doc with
    | mk m s =>
      cases s with
      | none =>
        simp only [packageStage]
        intro hcontra
        exact absurd (Option.some.inj hcontra) (by decide)
      | some sp =>
        cases m with
        | none =>
          simp only [packageStage]
          intro hcontra
          exact absurd (Option.some.inj hcontra) (by decide)
        | some mm =>
          simp [packageStage]

/-- Witness for C10 at a concrete opf-less file tree. -/
theorem C10_no_opf_fatal_witness :
    findOpfStage [("META-INF/container.xml"), ("OEBPS/chapter1.xhtml")] =
      Except.error ("No .opf file found in EPUB") :=
  (C10_no_opf_fatal [("META-INF/container.xml"), ("OEBPS/chapter1.xhtml")]
    (by decide)).1
